import Mathlib

/-!
Verification of the camera-driven face-recognition attendance pipeline
(`MOLT_Slazhivanie_FaceRecVisitLog`).

The development shallowly embeds the Python modules the claims are about:

* `app/modules/recognition/embeddings.py` (`find_best_match`),
* `app/modules/recognition/service.py` (`RecognitionService.recognize_face`,
  `_determine_status`, threshold constants),
* `app/modules/attendance/service.py` (`can_log_entry`, `log_entry`,
  `log_exit`, `get_employee_status` and the "latest row per employee" query),
* `app/modules/camera/snapshot_handler.py` (`_process_snapshot_internal`,
  `_record_attendance`),
* `app/modules/camera/event_listener.py` (the reconnect/backoff loop of
  `_event_listener_loop`).

Real-valued quantities (confidences, distances, timestamps in seconds) are
modelled as rationals `ℚ`.  External collaborators (the image decoder plus
the face-detection/embedding provider, the database session, the wall
clock, the file system) are modelled by passing their observable results
explicitly: a `recognize_face` call receives the outcome of
`create_embedding` as an `Except` value, the attendance service receives
the current table of attendance rows and the current time, and the snapshot
handler returns the resulting table together with what happened to the
snapshot file.
-/

namespace FaceRecVisitLog

/-! ## Recognition statuses

`service.py` uses the string literals `"match"`, `"low_confidence"`,
`"unknown"`, `"no_face"`, `"error"` (the `Literal` type of
`RecognitionResponse.status` in `recognition/models.py`); they are embedded
as an enumeration with the constructors in the same order. -/

inductive RecStatus where
  | matched
  | low_confidence
  | unknown
  | no_face
  | error
deriving DecidableEq, Repr

/-- `THRESHOLD_MATCH = 0.60` from `recognition/service.py`. -/
def THRESHOLD_MATCH : ℚ := 60 / 100

/-- `THRESHOLD_LOW_CONFIDENCE = 0.40` from `recognition/service.py`. -/
def THRESHOLD_LOW_CONFIDENCE : ℚ := 40 / 100

/-- `DISTANCE_THRESHOLD = 0.6` from `recognition/service.py`. -/
def DISTANCE_THRESHOLD : ℚ := 6 / 10

/-- `RecognitionService._determine_status` from `recognition/service.py`:
`"match"` when `similarity >= THRESHOLD_MATCH`, `"low_confidence"` when
`similarity >= THRESHOLD_LOW_CONFIDENCE`, else `"unknown"`. -/
def determine_status (similarity : ℚ) : RecStatus :=
  if similarity ≥ THRESHOLD_MATCH then .matched
  else if similarity ≥ THRESHOLD_LOW_CONFIDENCE then .low_confidence
  else .unknown

/-- The distance-to-confidence conversion of `find_best_match`
(`embeddings.py` line 90): `confidence = max(0.0, 1.0 - best_distance)`. -/
def conf_of_distance (distance : ℚ) : ℚ := max 0 (1 - distance)

/-- **C1.** For every best-match distance `d`, with confidence
`c = max(0, 1 - d)`, the classification computed by the recognition engine
(`_determine_status` applied to the confidence produced by
`find_best_match`) is `match` iff `d ≤ 0.40`, `low_confidence` iff
`0.40 < d ≤ 0.60`, and `unknown` otherwise; a distance lying exactly on a
threshold gets the stricter (better) classification. -/
theorem determine_status_bands (d : ℚ) :
    (determine_status (conf_of_distance d) = .matched ↔ d ≤ 40 / 100) ∧
    (determine_status (conf_of_distance d) = .low_confidence ↔
      40 / 100 < d ∧ d ≤ 60 / 100) ∧
    (determine_status (conf_of_distance d) = .unknown ↔ 60 / 100 < d) := by
  unfold determine_status conf_of_distance THRESHOLD_MATCH THRESHOLD_LOW_CONFIDENCE
  rcases le_or_lt d (40 / 100) with h1 | h1
  · have hc : max 0 (1 - d) ≥ 60 / 100 := by
      have : (1 : ℚ) - d ≥ 60 / 100 := by linarith
      exact le_trans this (le_max_right _ _)
    simp only [if_pos hc]
    refine ⟨⟨fun _ => h1, fun _ => trivial⟩, ?_, ?_⟩
    · constructor
      · intro h; cases h
      · intro h; linarith [h.1]
    · constructor
      · intro h; cases h
      · intro h; linarith
  · rcases le_or_lt d (60 / 100) with h2 | h2
    · have hd : (0 : ℚ) ≤ 1 - d := by linarith
      have hmax : max 0 (1 - d) = 1 - d := max_eq_right hd
      have hc1 : ¬ max 0 (1 - d) ≥ 60 / 100 := by rw [hmax]; intro h; linarith
      have hc2 : max 0 (1 - d) ≥ 40 / 100 := by rw [hmax]; linarith
      simp only [if_neg hc1, if_pos hc2]
      refine ⟨?_, ?_, ?_⟩
      · constructor
        · intro h; cases h
        · intro h; linarith
      · exact ⟨fun _ => ⟨h1, h2⟩, fun _ => trivial⟩
      · constructor
        · intro h; cases h
        · intro h; linarith
    · have hc1 : ¬ max 0 (1 - d) ≥ 60 / 100 := by
        rcases max_cases (0 : ℚ) (1 - d) with ⟨hm, _⟩ | ⟨hm, _⟩ <;> rw [hm] <;>
          intro h <;> linarith
      have hc2 : ¬ max 0 (1 - d) ≥ 40 / 100 := by
        rcases max_cases (0 : ℚ) (1 - d) with ⟨hm, _⟩ | ⟨hm, _⟩ <;> rw [hm] <;>
          intro h <;> linarith
      simp only [if_neg hc1, if_neg hc2]
      refine ⟨?_, ?_, ?_⟩
      · constructor
        · intro h; cases h
        · intro h; linarith
      · constructor
        · intro h; cases h
        · intro h; linarith [h.2]
      · exact ⟨fun _ => h2, fun _ => trivial⟩

/-! ## `find_best_match` (`recognition/embeddings.py`)

The Python loop starts with `best_distance = float('inf')` and replaces the
running best whenever `distance < best_distance`; since every computed
distance is a finite real, the first database row always replaces the
infinite sentinel, so the loop is the fold `best_go` below started at the
first row.  `euclidean_distance` itself is NumPy's real-valued
`√Σᵢ(aᵢ-bᵢ)²`; the selection and conversion logic of `find_best_match`
never looks at the shape of that function, only at the rational values it
returns, so the embedding takes the distance function as an explicit
argument (`dist`).  `euclidean_distance_dim1` below is the exact value of
the source's `euclidean_distance` on one-dimensional vectors
(`√((a-b)²) = |a-b|`), which is what the concrete witnesses use. -/

/-- A row of `embeddings_db` as passed to `find_best_match`:
`(person_id, person_name, embedding)`. -/
abbrev DbRow := ℤ × String × List ℚ

/-- A database row with its distance to the target computed
(`person_id, person_name, distance`). -/
abbrev ScoredRow := ℤ × String × ℚ

/-- The `for`-loop of `find_best_match`: keep the current best row, replace
it when a later row's distance is strictly smaller. -/
def best_go (acc : ScoredRow) : List ScoredRow → ScoredRow
  | [] => acc
  | r :: rest => best_go (if r.2.2 < acc.2.2 then r else acc) rest

/-- `find_best_match(target_embedding, embeddings_db, threshold)` from
`embeddings.py`: empty database returns `(None, None, 0.0)`; otherwise the
minimum distance (first row wins exact ties) is converted to
`confidence = max(0, 1 - best_distance)` and the tracked identity is
returned only when `best_distance <= threshold`, else `(None, None)` with
the same confidence. -/
def find_best_match (dist : List ℚ → List ℚ → ℚ) (target_embedding : List ℚ)
    (embeddings_db : List DbRow) (threshold : ℚ) :
    Option ℤ × Option String × ℚ :=
  match embeddings_db.map
      (fun r => ((r.1, r.2.1, dist target_embedding r.2.2) : ScoredRow)) with
  | [] => (none, none, 0)
  | r :: rest =>
    let best := best_go r rest
    let confidence := max 0 (1 - best.2.2)
    if best.2.2 ≤ threshold then (some best.1, some best.2.1, confidence)
    else (none, none, confidence)

/-- The exact value of `euclidean_distance` on one-dimensional embeddings:
`np.linalg.norm([a] - [b]) = |a - b|`. -/
def euclidean_distance_dim1 (embedding1 embedding2 : List ℚ) : ℚ :=
  ((embedding1.zip embedding2).map (fun p => |p.1 - p.2|)).sum

/-- The result of the tracking loop is a lower bound of every scanned
distance (and of the starting accumulator's distance). -/
theorem best_go_min (rows : List ScoredRow) (acc : ScoredRow) :
    (best_go acc rows).2.2 ≤ acc.2.2 ∧
      ∀ r ∈ rows, (best_go acc rows).2.2 ≤ r.2.2 := by
  induction rows generalizing acc with
  | nil => exact ⟨le_refl _, fun r hr => absurd hr (List.not_mem_nil r)⟩
  | cons x xs ih =>
    simp only [best_go]
    rcases ih (if x.2.2 < acc.2.2 then x else acc) with ⟨h1, h2⟩
    constructor
    · refine le_trans h1 ?_
      split
      · exact le_of_lt (by assumption)
      · exact le_refl _
    · intro r hr
      rcases List.mem_cons.mp hr with rfl | hr
      · refine le_trans h1 ?_
        split
        · exact le_refl _
        · exact le_of_not_lt (by assumption)
      · exact h2 r hr

/-- The tracking loop keeps the first row attaining the minimum: the result
is the first element of `acc :: rows` whose distance is `≤` the minimum. -/
theorem best_go_first (rows : List ScoredRow) (acc : ScoredRow) :
    (acc :: rows).find? (fun r => decide (r.2.2 ≤ (best_go acc rows).2.2)) =
      some (best_go acc rows) := by
  induction rows generalizing acc with
  | nil =>
    simp [best_go, List.find?]
  | cons x xs ih =>
    simp only [best_go]
    by_cases hx : x.2.2 < acc.2.2
    · simp only [if_pos hx]
      have hmin := (best_go_min xs x).1
      have hacc : ¬ (decide (acc.2.2 ≤ (best_go x xs).2.2) = true) := by
        simp only [decide_eq_true_eq]
        intro h
        linarith
      rw [@List.find?_cons_of_neg ScoredRow
        (fun r => decide (r.2.2 ≤ (best_go x xs).2.2)) acc (x :: xs) hacc]
      exact ih x
    · simp only [if_neg hx]
      have hle : acc.2.2 ≤ x.2.2 := le_of_not_lt hx
      have ihx := ih acc
      by_cases hacc : acc.2.2 ≤ (best_go acc xs).2.2
      · have h1 : decide (acc.2.2 ≤ (best_go acc xs).2.2) = true := by
          simpa using hacc
        rw [@List.find?_cons_of_pos ScoredRow
          (fun r => decide (r.2.2 ≤ (best_go acc xs).2.2)) acc (x :: xs) h1]
        rw [@List.find?_cons_of_pos ScoredRow
          (fun r => decide (r.2.2 ≤ (best_go acc xs).2.2)) acc xs h1] at ihx
        exact ihx
      · have h1 : ¬ (decide (acc.2.2 ≤ (best_go acc xs).2.2) = true) := by
          simpa using hacc
        rw [@List.find?_cons_of_neg ScoredRow
          (fun r => decide (r.2.2 ≤ (best_go acc xs).2.2)) acc (x :: xs) h1]
        rw [@List.find?_cons_of_neg ScoredRow
          (fun r => decide (r.2.2 ≤ (best_go acc xs).2.2)) acc xs h1] at ihx
        have h2 : ¬ (decide (x.2.2 ≤ (best_go acc xs).2.2) = true) := by
          simp only [decide_eq_true_eq]
          intro h
          exact hacc (le_trans hle h)
        rw [@List.find?_cons_of_neg ScoredRow
          (fun r => decide (r.2.2 ≤ (best_go acc xs).2.2)) x xs h2]
        exact ihx

/-- **C2 (amended).** For every non-empty embeddings database and every
distance function (Euclidean distance in the source), `find_best_match`
tracks the first-encountered candidate attaining the minimum distance and
returns `confidence = max(0, 1 - minimum_distance)` — so minimum distance
`0` yields confidence `1.0` and any minimum distance `≥ 1.0` yields
confidence `0.0` — but it returns that candidate's identity only when the
minimum distance is `≤ threshold`; otherwise it returns `(None, None)`
together with the same confidence. -/
theorem find_best_match_spec (dist : List ℚ → List ℚ → ℚ) (target : List ℚ)
    (embeddings_db : List DbRow) (threshold : ℚ)
    (hne : embeddings_db ≠ []) :
    ∃ best : ScoredRow,
      (∀ r ∈ embeddings_db.map
          (fun r => ((r.1, r.2.1, dist target r.2.2) : ScoredRow)),
        best.2.2 ≤ r.2.2) ∧
      (embeddings_db.map
          (fun r => ((r.1, r.2.1, dist target r.2.2) : ScoredRow))).find?
          (fun r => decide (r.2.2 ≤ best.2.2)) = some best ∧
      find_best_match dist target embeddings_db threshold =
        (if best.2.2 ≤ threshold then
          (some best.1, some best.2.1, max 0 (1 - best.2.2))
         else (none, none, max 0 (1 - best.2.2))) ∧
      (best.2.2 = 0 →
        (find_best_match dist target embeddings_db threshold).2.2 = 1) ∧
      (1 ≤ best.2.2 →
        (find_best_match dist target embeddings_db threshold).2.2 = 0) := by
  obtain ⟨d, ds, rfl⟩ := List.exists_cons_of_ne_nil hne
  have heq : find_best_match dist target (d :: ds) threshold =
      (if (best_go (d.1, d.2.1, dist target d.2.2)
            (ds.map (fun r => ((r.1, r.2.1, dist target r.2.2) : ScoredRow)))).2.2
          ≤ threshold then
        (some (best_go (d.1, d.2.1, dist target d.2.2)
            (ds.map (fun r => ((r.1, r.2.1, dist target r.2.2) : ScoredRow)))).1,
         some (best_go (d.1, d.2.1, dist target d.2.2)
            (ds.map (fun r => ((r.1, r.2.1, dist target r.2.2) : ScoredRow)))).2.1,
         max 0 (1 - (best_go (d.1, d.2.1, dist target d.2.2)
            (ds.map (fun r =>
              ((r.1, r.2.1, dist target r.2.2) : ScoredRow)))).2.2))
       else (none, none, max 0 (1 - (best_go (d.1, d.2.1, dist target d.2.2)
            (ds.map (fun r =>
              ((r.1, r.2.1, dist target r.2.2) : ScoredRow)))).2.2))) := by
    simp only [find_best_match, List.map_cons]
  refine ⟨best_go (d.1, d.2.1, dist target d.2.2)
      (ds.map (fun r => ((r.1, r.2.1, dist target r.2.2) : ScoredRow))),
    ?_, ?_, heq, ?_, ?_⟩
  · intro r hr
    rw [List.map_cons] at hr
    rcases List.mem_cons.mp hr with rfl | hr
    · exact (best_go_min _ _).1
    · exact (best_go_min _ _).2 r hr
  · rw [List.map_cons]
    exact best_go_first _ _
  · intro h0
    rw [heq]
    split
    · simp only [h0]
      norm_num
    · simp only [h0]
      norm_num
  · intro h1
    rw [heq]
    have : max 0 (1 - (best_go (d.1, d.2.1, dist target d.2.2)
        (ds.map (fun r => ((r.1, r.2.1, dist target r.2.2) : ScoredRow)))).2.2)
        = 0 := by
      apply max_eq_left
      linarith
    split
    · simpa using this
    · simpa using this

/-- Witness for `find_best_match_spec` at the one-row database
`[(1, "a", [0])]` with target `[0]`. -/
theorem find_best_match_spec_witness :
    ([((1 : ℤ), "a", [(0 : ℚ)])] : List DbRow) ≠ [] ∧
    ∃ best : ScoredRow,
      (∀ r ∈ ([((1 : ℤ), "a", [(0 : ℚ)])] : List DbRow).map
          (fun r =>
            ((r.1, r.2.1, euclidean_distance_dim1 [0] r.2.2) : ScoredRow)),
        best.2.2 ≤ r.2.2) ∧
      (([((1 : ℤ), "a", [(0 : ℚ)])] : List DbRow).map
          (fun r =>
            ((r.1, r.2.1, euclidean_distance_dim1 [0] r.2.2) : ScoredRow))).find?
          (fun r => decide (r.2.2 ≤ best.2.2)) = some best ∧
      find_best_match euclidean_distance_dim1 [0] [((1 : ℤ), "a", [(0 : ℚ)])]
          DISTANCE_THRESHOLD =
        (if best.2.2 ≤ DISTANCE_THRESHOLD then
          (some best.1, some best.2.1, max 0 (1 - best.2.2))
         else (none, none, max 0 (1 - best.2.2))) ∧
      (best.2.2 = 0 →
        (find_best_match euclidean_distance_dim1 [0]
          [((1 : ℤ), "a", [(0 : ℚ)])] DISTANCE_THRESHOLD).2.2 = 1) ∧
      (1 ≤ best.2.2 →
        (find_best_match euclidean_distance_dim1 [0]
          [((1 : ℤ), "a", [(0 : ℚ)])] DISTANCE_THRESHOLD).2.2 = 0) :=
  ⟨by decide,
    find_best_match_spec euclidean_distance_dim1 [0]
      [((1 : ℤ), "a", [(0 : ℚ)])] DISTANCE_THRESHOLD (by decide)⟩

/-- **C2, counterexample.** Database `[(1, "a", [0])]`, target `[2]`: the
unique (hence minimum-distance) candidate is person 1 at Euclidean distance
`2 ≥ 1`, so by the claim `find_best_match` should return person 1 with
confidence `0.0`; instead it returns `(None, None, 0.0)` because the
minimum distance exceeds the `0.6` threshold, so the claimed "returns the
person whose stored embedding has the minimum Euclidean distance" fails. -/
theorem find_best_match_counterexample :
    euclidean_distance_dim1 [2] [0] = 2 ∧
    find_best_match euclidean_distance_dim1 [2] [((1 : ℤ), "a", [(0 : ℚ)])]
      DISTANCE_THRESHOLD = (none, none, 0) ∧
    (find_best_match euclidean_distance_dim1 [2] [((1 : ℤ), "a", [(0 : ℚ)])]
      DISTANCE_THRESHOLD).1 ≠ some 1 := by
  have h2 : find_best_match euclidean_distance_dim1 [2]
      [((1 : ℤ), "a", [(0 : ℚ)])] DISTANCE_THRESHOLD = (none, none, 0) := by
    norm_num [find_best_match, euclidean_distance_dim1, best_go,
      DISTANCE_THRESHOLD]
  refine ⟨by norm_num [euclidean_distance_dim1], h2, ?_⟩
  rw [h2]
  simp

/-! ## `RecognitionService.recognize_face` (`recognition/service.py`)

`recognize_face` wraps its whole body in `try/except Exception`, returning
a `status="error"` response with the exception's message instead of
re-raising.  The collaborators that can raise inside the body —
`_decode_image` (raises `InvalidImageError` on undecodable bytes) and the
detection/embedding provider called by `create_embedding` — are modelled by
handing `recognize_face` the outcome of `create_embedding` as an
`Except String EmbeddingResult`.  The wall-clock fields
(`processing_time_ms`, the freshly drawn `trace_id`) are not modelled. -/

/-- `EmbeddingResult` from `recognition/models.py` (without the `bbox`
field, which `recognize_face` never reads). -/
structure EmbeddingResult where
  embedding : List ℚ
  face_detected : Bool
  face_quality : ℚ
deriving DecidableEq, Repr

/-- `RecognitionResponse` from `recognition/models.py` (without the
wall-clock fields `processing_time_ms` and `trace_id`).  Defaults in the
source: `person_id = None`, `person_name = None`, `confidence = 0.0`,
`error_message = None`. -/
structure RecognitionResponse where
  status : RecStatus
  person_id : Option ℤ
  person_name : Option String
  confidence : ℚ
  error_message : Option String
deriving DecidableEq, Repr

/-- `EmployeeEmbedding` from `recognition/models.py` (without `created_at`,
which recognition never reads). -/
structure EmployeeEmbedding where
  person_id : ℤ
  person_name : String
  embedding : List ℚ
deriving DecidableEq, Repr

/-- The `try:` body of `recognize_face` (`service.py` lines 117-147): an
exception from `create_embedding` propagates; otherwise
`face_detected = False` yields the `no_face` response, and otherwise the
database rows are converted to tuples, `find_best_match` runs with
`DISTANCE_THRESHOLD`, and the response carries `_determine_status` of the
returned confidence, suppressing the identity when the status is
`unknown`. -/
def recognize_face_body (dist : List ℚ → List ℚ → ℚ)
    (embedding_outcome : Except String EmbeddingResult)
    (embeddings_db : List EmployeeEmbedding) :
    Except String RecognitionResponse :=
  match embedding_outcome with
  | .error e => .error e
  | .ok embedding_result =>
    if embedding_result.face_detected = false then
      .ok ⟨.no_face, none, none, 0, none⟩
    else
      let db_tuples := embeddings_db.map
        (fun e => ((e.person_id, e.person_name, e.embedding) : DbRow))
      let result := find_best_match dist embedding_result.embedding db_tuples
        DISTANCE_THRESHOLD
      let similarity := result.2.2
      let status := determine_status similarity
      .ok ⟨status,
        if status = .unknown then none else result.1,
        if status = .unknown then none else result.2.1,
        similarity, none⟩

/-- `recognize_face` (`service.py` lines 97-155): the `except Exception`
clause turns any exception raised by the body into the
`status="error"` response carrying `error_message=str(e)`. -/
def recognize_face (dist : List ℚ → List ℚ → ℚ)
    (embedding_outcome : Except String EmbeddingResult)
    (embeddings_db : List EmployeeEmbedding) : RecognitionResponse :=
  match recognize_face_body dist embedding_outcome embeddings_db with
  | .ok resp => resp
  | .error e => ⟨.error, none, none, 0, some e⟩

/-- `_determine_status` only ever produces one of the three classification
statuses. -/
theorem determine_status_cases (similarity : ℚ) :
    determine_status similarity = .matched ∨
    determine_status similarity = .low_confidence ∨
    determine_status similarity = .unknown := by
  unfold determine_status
  split_ifs <;> simp

/-- **C7.** If a face was detected (and the image decoded) but the
embedding index is empty, `recognize_face` returns the `unknown` outcome
with confidence exactly `0.0` and no person identity — never `match`. -/
theorem recognize_face_empty_index (dist : List ℚ → List ℚ → ℚ)
    (er : EmbeddingResult) (h : er.face_detected = true) :
    recognize_face dist (.ok er) [] = ⟨.unknown, none, none, 0, none⟩ ∧
    (recognize_face dist (.ok er) []).status ≠ .matched := by
  have hz : determine_status (0 : ℚ) = .unknown := by
    unfold determine_status THRESHOLD_MATCH THRESHOLD_LOW_CONFIDENCE
    norm_num
  have hbody : recognize_face dist (.ok er) [] =
      ⟨.unknown, none, none, 0, none⟩ := by
    simp [recognize_face, recognize_face_body, h, find_best_match, hz]
  exact ⟨hbody, by rw [hbody]; simp⟩

/-- Witness for `recognize_face_empty_index` at a concrete detected
face. -/
theorem recognize_face_empty_index_witness :
    (⟨[0], true, 1⟩ : EmbeddingResult).face_detected = true ∧
    (recognize_face euclidean_distance_dim1
        (.ok ⟨[0], true, 1⟩) [] = ⟨.unknown, none, none, 0, none⟩ ∧
      (recognize_face euclidean_distance_dim1
        (.ok ⟨[0], true, 1⟩) []).status ≠ .matched) :=
  ⟨rfl, recognize_face_empty_index euclidean_distance_dim1 ⟨[0], true, 1⟩ rfl⟩

/-- **C8.** `recognize_face` never lets an exception escape: an error from
image decoding or the detection/embedding capability is returned as the
`error` response carrying the message, and a successful embedding outcome
never produces an `error` response (its `error_message` is `None`). -/
theorem recognize_face_catches (dist : List ℚ → List ℚ → ℚ)
    (embeddings_db : List EmployeeEmbedding) (msg : String)
    (er : EmbeddingResult) :
    recognize_face dist (.error msg) embeddings_db =
      ⟨.error, none, none, 0, some msg⟩ ∧
    (recognize_face dist (.ok er) embeddings_db).status ≠ .error ∧
    (recognize_face dist (.ok er) embeddings_db).error_message = none := by
  refine ⟨rfl, ?_, ?_⟩ <;>
  · unfold recognize_face recognize_face_body
    rcases hf : er.face_detected with _ | _
    · simp [hf]
    · rcases determine_status_cases
          (find_best_match dist er.embedding
            (embeddings_db.map
              (fun e => ((e.person_id, e.person_name, e.embedding) : DbRow)))
            DISTANCE_THRESHOLD).2.2 with hs | hs | hs <;>
        simp [hf, hs]

/-! ## `AttendanceService` (`attendance/service.py`)

The `attendance_logs` table is modelled as a list of rows in insertion
order; `_create_log` appends (`session.add`).  Timestamps are rational
seconds; `datetime.now()` is passed in as `now`.  The query used by both
`can_log_entry` and `_get_last_log` —
`ORDER BY timestamp DESC LIMIT 1` — returns a row of maximal timestamp for
the employee; SQL leaves the order of equal timestamps unspecified, and the
embedding resolves ties towards the most recently inserted row. -/

/-- `EventType` from `attendance/models.py` / `db/models.py`. -/
inductive EventType where
  | entry
  | exit
deriving DecidableEq, Repr

/-- `PresenceStatus` from `attendance/models.py`
(`IN_OFFICE`, `LEFT`, `UNKNOWN`). -/
inductive PresenceStatus where
  | in_office
  | left
  | unknown
deriving DecidableEq, Repr

/-- A row of the `attendance_logs` table (`AttendanceLog` in
`db/models.py`), with the fields the attendance service reads/writes. -/
structure AttendanceLog where
  employee_id : ℤ
  event_type : EventType
  confidence : ℚ
  trace_id : String
  timestamp : ℚ
deriving DecidableEq, Repr

/-- `COOLDOWN_SECONDS = 300` from `attendance/service.py`. -/
def COOLDOWN_SECONDS : ℚ := 300

/-- The `SELECT ... WHERE employee_id = ? ORDER BY timestamp DESC LIMIT 1`
query shared by `can_log_entry` and `_get_last_log`: the employee's row of
maximal timestamp (`none` when the employee has no rows). -/
def last_log (logs : List AttendanceLog) (employee_id : ℤ) :
    Option AttendanceLog :=
  (logs.filter (fun l => decide (l.employee_id = employee_id))).foldl
    (fun acc l =>
      match acc with
      | none => some l
      | some b => if b.timestamp ≤ l.timestamp then some l else some b)
    none

/-- `can_log_entry` (`attendance/service.py` lines 137-166): `True` when
the employee has no rows at all, otherwise `True` iff
`now - last_log.timestamp >= cooldown_seconds`. -/
def can_log_entry (logs : List AttendanceLog) (employee_id : ℤ)
    (cooldown_seconds : ℚ) (now : ℚ) : Bool :=
  match last_log logs employee_id with
  | none => true
  | some last => decide (now - last.timestamp ≥ cooldown_seconds)

/-- `log_entry` → `_create_log` (`attendance/service.py`): append an
`ENTRY` row stamped `datetime.now()`. -/
def log_entry (logs : List AttendanceLog) (employee_id : ℤ)
    (confidence : ℚ) (trace_id : String) (now : ℚ) : List AttendanceLog :=
  logs ++ [⟨employee_id, .entry, confidence, trace_id, now⟩]

/-- `log_exit` → `_create_log` (`attendance/service.py`): append an `EXIT`
row with `confidence = 1.0` stamped `datetime.now()`. -/
def log_exit (logs : List AttendanceLog) (employee_id : ℤ)
    (trace_id : String) (now : ℚ) : List AttendanceLog :=
  logs ++ [⟨employee_id, .exit, 1, trace_id, now⟩]

/-- `get_employee_status` (`attendance/service.py` lines 180-218): no row →
`UNKNOWN`; latest row `ENTRY` → `IN_OFFICE`; otherwise `LEFT`. -/
def get_employee_status (logs : List AttendanceLog) (employee_id : ℤ) :
    PresenceStatus :=
  match last_log logs employee_id with
  | none => .unknown
  | some last => if last.event_type = .entry then .in_office else .left

/-- `last_log` is `none` exactly when the employee has no rows. -/
theorem last_log_eq_none (logs : List AttendanceLog) (eid : ℤ) :
    last_log logs eid = none ↔ ∀ l ∈ logs, l.employee_id ≠ eid := by
  unfold last_log
  constructor
  · intro h l hl hlid
    have hmem : l ∈ logs.filter (fun l => decide (l.employee_id = eid)) :=
      List.mem_filter.mpr ⟨hl, by simpa using hlid⟩
    rcases hfl : logs.filter (fun l => decide (l.employee_id = eid)) with
        _ | ⟨x, xs⟩
    · rw [hfl] at hmem
      exact List.not_mem_nil l hmem
    · rw [hfl] at h
      have : ∀ (b : AttendanceLog) (ys : List AttendanceLog),
          ys.foldl (fun acc l =>
            match acc with
            | none => some l
            | some b => if b.timestamp ≤ l.timestamp then some l else some b)
            (some b) ≠ none := by
        intro b ys
        induction ys generalizing b with
        | nil => simp
        | cons y ys ih =>
          simp only [List.foldl_cons]
          split <;> exact ih _
      simp only [List.foldl_cons] at h
      exact absurd h (this x xs)
  · intro h
    have hfl : logs.filter (fun l => decide (l.employee_id = eid)) = [] := by
      rw [List.filter_eq_nil_iff]
      intro l hl
      simpa using h l hl
    rw [hfl]
    rfl

/-- Any row produced by `last_log` belongs to the employee and carries the
maximal timestamp among the employee's rows. -/
theorem last_log_eq_some (logs : List AttendanceLog) (eid : ℤ)
    (l : AttendanceLog) (h : last_log logs eid = some l) :
    l ∈ logs ∧ l.employee_id = eid ∧
      ∀ l' ∈ logs, l'.employee_id = eid → l'.timestamp ≤ l.timestamp := by
  have key : ∀ (ys : List AttendanceLog) (acc r : AttendanceLog),
      ys.foldl (fun acc l =>
        match acc with
        | none => some l
        | some b => if b.timestamp ≤ l.timestamp then some l else some b)
        (some acc) = some r →
      (r = acc ∨ r ∈ ys) ∧ acc.timestamp ≤ r.timestamp ∧
        ∀ y ∈ ys, y.timestamp ≤ r.timestamp := by
    intro ys
    induction ys with
    | nil =>
      intro acc r h
      simp only [List.foldl_nil, Option.some_inj] at h
      subst h
      exact ⟨Or.inl rfl, le_refl _, by simp⟩
    | cons y ys ih =>
      intro acc r h
      simp only [List.foldl_cons] at h
      by_cases hy : acc.timestamp ≤ y.timestamp
      · rw [if_pos hy] at h
        rcases ih y r h with ⟨hmem, hts, hall⟩
        refine ⟨?_, le_trans hy hts, ?_⟩
        · rcases hmem with rfl | hm
          · exact Or.inr (List.mem_cons_self _ _)
          · exact Or.inr (List.mem_cons_of_mem _ hm)
        · intro z hz
          rcases List.mem_cons.mp hz with rfl | hz
          · exact hts
          · exact hall z hz
      · rw [if_neg hy] at h
        rcases ih acc r h with ⟨hmem, hts, hall⟩
        refine ⟨?_, hts, ?_⟩
        · rcases hmem with rfl | hm
          · exact Or.inl rfl
          · exact Or.inr (List.mem_cons_of_mem _ hm)
        · intro z hz
          rcases List.mem_cons.mp hz with rfl | hz
          · exact le_trans (le_of_not_le hy) hts
          · exact hall z hz
  unfold last_log at h
  rcases hfl : logs.filter (fun l => decide (l.employee_id = eid)) with
      _ | ⟨x, xs⟩
  · rw [hfl] at h
    exact absurd h (by simp)
  · rw [hfl, List.foldl_cons] at h
    rcases key xs x l h with ⟨hmem, _, hall⟩
    have hxmem : ∀ z, z ∈ x :: xs → z ∈ logs ∧ z.employee_id = eid := by
      intro z hz
      have : z ∈ logs.filter (fun l => decide (l.employee_id = eid)) := by
        rw [hfl]
        exact hz
      rcases List.mem_filter.mp this with ⟨h1, h2⟩
      exact ⟨h1, by simpa using h2⟩
    have hl : l ∈ x :: xs := by
      rcases hmem with rfl | hm
      · exact List.mem_cons_self _ _
      · exact List.mem_cons_of_mem _ hm
    refine ⟨(hxmem l hl).1, (hxmem l hl).2, ?_⟩
    intro l' hl' heid
    have : l' ∈ x :: xs := by
      have : l' ∈ logs.filter (fun l => decide (l.employee_id = eid)) :=
        List.mem_filter.mpr ⟨hl', by simpa using heid⟩
      rwa [hfl] at this
    rcases List.mem_cons.mp this with rfl | hm
    · rcases key xs l' l h with ⟨_, hts, _⟩
      exact hts
    · exact hall l' hm

/-- If the employee has at least one row, `last_log` finds one. -/
theorem last_log_isSome (logs : List AttendanceLog) (eid : ℤ)
    (h : ∃ l ∈ logs, l.employee_id = eid) :
    ∃ b, last_log logs eid = some b := by
  rcases hll : last_log logs eid with _ | b
  · rcases h with ⟨l, hl, heid⟩
    exact absurd heid ((last_log_eq_none logs eid).mp hll l hl)
  · exact ⟨b, rfl⟩

/-- **C5.** `can_log_entry` returns `True` iff the employee has no prior
attendance row of any type, or the elapsed time since the employee's
most recent row is at least `cooldown_seconds`; and it returns `False`
immediately after an entry is recorded for that employee (for any positive
cooldown, in particular the default 300). -/
theorem can_log_entry_spec (logs : List AttendanceLog) (eid : ℤ)
    (cooldown_seconds now confidence : ℚ) (trace_id : String) :
    (can_log_entry logs eid cooldown_seconds now = true ↔
      (∀ l ∈ logs, l.employee_id ≠ eid) ∨
      (∃ l ∈ logs, l.employee_id = eid ∧
        (∀ l' ∈ logs, l'.employee_id = eid → l'.timestamp ≤ l.timestamp) ∧
        now - l.timestamp ≥ cooldown_seconds)) ∧
    (0 < cooldown_seconds →
      can_log_entry (log_entry logs eid confidence trace_id now) eid
        cooldown_seconds now = false) := by
  constructor
  · unfold can_log_entry
    rcases hll : last_log logs eid with _ | last
    · simp only [true_iff]
      exact Or.inl ((last_log_eq_none logs eid).mp hll)
    · rcases last_log_eq_some logs eid last hll with ⟨hmem, heid, hmax⟩
      simp only [decide_eq_true_eq]
      constructor
      · intro h
        exact Or.inr ⟨last, hmem, heid, hmax, h⟩
      · rintro (h | ⟨l, hl, hleid, hlmax, hcd⟩)
        · exact absurd heid (h last hmem)
        · have h1 : l.timestamp ≤ last.timestamp := hmax l hl hleid
          have h2 : last.timestamp ≤ l.timestamp := hlmax last hmem heid
          have : l.timestamp = last.timestamp := le_antisymm h1 h2
          linarith [hcd, this]
  · intro hcd
    have hmem : (⟨eid, .entry, confidence, trace_id, now⟩ : AttendanceLog)
        ∈ log_entry logs eid confidence trace_id now := by
      unfold log_entry
      simp
    obtain ⟨b, hb⟩ := last_log_isSome _ eid ⟨_, hmem, rfl⟩
    rcases last_log_eq_some _ eid b hb with ⟨_, _, hmax⟩
    have hts : now ≤ b.timestamp := hmax _ hmem rfl
    unfold can_log_entry
    rw [hb, decide_eq_false_iff_not]
    intro h
    have : now - b.timestamp ≥ cooldown_seconds := h
    linarith

/-- Witness for `can_log_entry_spec`: the default 300-second cooldown
rejects an employee right after their entry was recorded. -/
theorem can_log_entry_spec_witness :
    (0 : ℚ) < 300 ∧
    can_log_entry (log_entry [] 1 1 "t" 0) 1 300 0 = false :=
  ⟨by norm_num, (can_log_entry_spec [] 1 300 0 1 "t").2 (by norm_num)⟩

/-- **C6.** The presence status reported by `get_employee_status` is a pure
function of the employee's most recent attendance row: no row at all →
`UNKNOWN`; the maximal-timestamp row has type `ENTRY` → `IN_OFFICE`,
otherwise (`EXIT`) → `LEFT`. -/
theorem get_employee_status_spec (logs : List AttendanceLog) (eid : ℤ) :
    ((∀ l ∈ logs, l.employee_id ≠ eid) →
      get_employee_status logs eid = .unknown) ∧
    (∀ l, last_log logs eid = some l →
      l ∈ logs ∧ l.employee_id = eid ∧
      (∀ l' ∈ logs, l'.employee_id = eid → l'.timestamp ≤ l.timestamp) ∧
      get_employee_status logs eid =
        (if l.event_type = .entry then .in_office else .left)) := by
  constructor
  · intro h
    unfold get_employee_status
    rw [(last_log_eq_none logs eid).mpr h]
  · intro l hl
    rcases last_log_eq_some logs eid l hl with ⟨h1, h2, h3⟩
    refine ⟨h1, h2, h3, ?_⟩
    unfold get_employee_status
    rw [hl]

/-- Witness for `get_employee_status_spec`: one recorded entry yields
`IN_OFFICE`. -/
theorem get_employee_status_spec_witness :
    last_log [⟨1, .entry, 1, "a", 0⟩] 1 = some ⟨1, .entry, 1, "a", 0⟩ ∧
    get_employee_status [⟨1, .entry, 1, "a", 0⟩] 1 = .in_office := by
  have h := (get_employee_status_spec [⟨1, .entry, 1, "a", 0⟩] 1).2
    ⟨1, .entry, 1, "a", 0⟩ (by rfl)
  exact ⟨by rfl, by simpa using h.2.2.2⟩

/-! ## `SnapshotDispatcher` (`camera/snapshot_handler.py`)

`_process_snapshot_internal` reads the snapshot file, runs recognition
against the employees' stored embeddings and routes the file by outcome.
The model passes in the observable behaviour of the collaborators: the
file's bytes (`image_data`), `recognition_service.is_ready()` (`ready`),
the rows of `employee_crud.get_employees_with_embeddings` (`employees`),
the outcome of `create_embedding` (`embedding_outcome`), whether
`attendance_service.log_entry`'s database write succeeds (`persist_ok`),
the clock (`now`) and the current attendance table (`logs`).  The result
records the new attendance table, what happened to the snapshot file, and
whether `recognize_face` was invoked.  Exceptions escaping the body are
caught by the handler's blanket `except` (lines 138-141), which leaves the
file untouched — the `.error` match arms below. -/

/-- What became of the snapshot file. -/
inductive FileAction where
  | untouched
  | deleted
  | moved_to_recognized
deriving DecidableEq, Repr

/-- One row of `employee_crud.get_employees_with_embeddings`: the employee
(`id`, `full_name`) joined with its embedding record's `vector`. -/
structure EmployeeRow where
  id : ℤ
  full_name : String
  vector : List ℚ
deriving DecidableEq, Repr

/-- Observable outcome of one `_process_snapshot_internal` call. -/
structure SnapshotResult where
  logs : List AttendanceLog
  file_action : FileAction
  recognition_invoked : Bool
deriving DecidableEq, Repr

/-- Python truthiness of `result.person_id` (`int | None`): `None` and `0`
are falsy. -/
def py_truthy_int (o : Option ℤ) : Bool :=
  match o with
  | none => false
  | some n => decide (n ≠ 0)

/-- `_record_attendance` (`snapshot_handler.py` lines 168-197): check
`can_log_entry`; on rejection return with no write; otherwise call
`log_entry` inside `try/except Exception`, which logs and swallows a
persistence failure.  The `Except` codomain shows what the caller can
observe: the function never propagates an error. -/
def record_attendance (logs : List AttendanceLog) (employee_id : ℤ)
    (confidence : ℚ) (trace_id : String) (now : ℚ) (persist_ok : Bool) :
    Except String (List AttendanceLog) :=
  if can_log_entry logs employee_id COOLDOWN_SECONDS now then
    match (if persist_ok then
        Except.ok (log_entry logs employee_id confidence trace_id now)
      else Except.error ("persistence failure")) with
    | .ok logs2 => .ok logs2
    | .error _ => .ok logs
  else .ok logs

/-- `_process_snapshot_internal` (`snapshot_handler.py` lines 70-141):
empty file → delete; service not ready → return (file untouched); no
employee rows → return; all embedding vectors empty (Python truthiness of
`emb.vector`) → return; otherwise recognize and route: `match` with truthy
`person_id` → `_record_attendance` then move to `recognized/`; `no_face` →
delete; anything else → leave in place. -/
def process_snapshot_internal (dist : List ℚ → List ℚ → ℚ)
    (image_data : List ℕ) (ready : Bool) (employees : List EmployeeRow)
    (embedding_outcome : Except String EmbeddingResult) (persist_ok : Bool)
    (trace_id : String) (now : ℚ) (logs : List AttendanceLog) :
    SnapshotResult :=
  if image_data = [] then ⟨logs, .deleted, false⟩
  else if ready = false then ⟨logs, .untouched, false⟩
  else if employees = [] then ⟨logs, .untouched, false⟩
  else
    let embeddings_db := (employees.filter (fun e => !e.vector.isEmpty)).map
      (fun e => (⟨e.id, e.full_name, e.vector⟩ : EmployeeEmbedding))
    if embeddings_db = [] then ⟨logs, .untouched, false⟩
    else
      let result := recognize_face dist embedding_outcome embeddings_db
      if result.status = .matched ∧ py_truthy_int result.person_id = true then
        match record_attendance logs (result.person_id.getD 0)
            result.confidence trace_id now persist_ok with
        | .ok logs2 => ⟨logs2, .moved_to_recognized, true⟩
        | .error _ => ⟨logs, .untouched, true⟩
      else if result.status = .no_face then ⟨logs, .deleted, true⟩
      else ⟨logs, .untouched, true⟩

/-- Concrete recognition scenario used below: one enrolled person with
embedding `[0]`, probe embedding `[0]` (distance 0, confidence 1) —
a clean `match` on person 1. -/
theorem recognize_face_scenario :
    recognize_face euclidean_distance_dim1 (.ok ⟨[0], true, 1⟩)
      [⟨1, "a", [0]⟩] = ⟨.matched, some 1, some "a", 1, none⟩ := by
  norm_num [recognize_face, recognize_face_body, find_best_match, best_go,
    euclidean_distance_dim1, determine_status, THRESHOLD_MATCH,
    THRESHOLD_LOW_CONFIDENCE, DISTANCE_THRESHOLD]
  refine ⟨fun h => ?_, fun h => ?_⟩ <;> simp at h

/-- Cooldown fact used below: an entry for employee 1 at time 0 blocks a
new entry at time 10 under the default 300-second cooldown. -/
theorem can_log_entry_scenario :
    can_log_entry [⟨1, .entry, 1, "x", 0⟩] 1 COOLDOWN_SECONDS 10 = false := by
  norm_num [can_log_entry, last_log, COOLDOWN_SECONDS]

/-- **C3, counterexample.** A snapshot that is a clean `match` for employee
1 while the cooldown rejects them: no attendance row is created (the table
is unchanged), but the dispatcher still moves the snapshot to the
`recognized/` archive (`_move_to_recognized` runs unconditionally on
`match` at `snapshot_handler.py` line 129), contradicting "the source
image file is left untouched". -/
theorem process_snapshot_cooldown_counterexample :
    (recognize_face euclidean_distance_dim1 (.ok ⟨[0], true, 1⟩)
      [⟨1, "a", [0]⟩]).status = .matched ∧
    can_log_entry [⟨1, .entry, 1, "x", 0⟩] 1 COOLDOWN_SECONDS 10 = false ∧
    process_snapshot_internal euclidean_distance_dim1 [1] true
      [⟨1, "a", [0]⟩] (.ok ⟨[0], true, 1⟩) true ("t") 10
      [⟨1, .entry, 1, "x", 0⟩] =
      ⟨[⟨1, .entry, 1, "x", 0⟩], .moved_to_recognized, true⟩ := by
  refine ⟨by rw [recognize_face_scenario], can_log_entry_scenario, ?_⟩
  have hra : record_attendance [⟨1, .entry, 1, "x", 0⟩] 1 1 ("t") 10 true =
      .ok [⟨1, .entry, 1, "x", 0⟩] := by
    simp [record_attendance, can_log_entry_scenario]
  simp [process_snapshot_internal, recognize_face_scenario, py_truthy_int,
    hra]

/-- **C3 (amended).** For every snapshot classified as `match` (with a
truthy person id) for which the cooldown check rejects the employee, the
dispatcher creates no attendance event (the attendance table is unchanged),
but the source image is nevertheless moved to the `recognized/` archive:
the move on `match` is unconditional and does not depend on the cooldown
decision. -/
theorem process_snapshot_cooldown_rejected (dist : List ℚ → List ℚ → ℚ)
    (image_data : List ℕ) (employees : List EmployeeRow)
    (embedding_outcome : Except String EmbeddingResult) (persist_ok : Bool)
    (trace_id : String) (now : ℚ) (logs : List AttendanceLog)
    (h1 : image_data ≠ [])
    (h2 : (employees.filter (fun e => !e.vector.isEmpty)).map
      (fun e => (⟨e.id, e.full_name, e.vector⟩ : EmployeeEmbedding)) ≠ [])
    (h3 : (recognize_face dist embedding_outcome
      ((employees.filter (fun e => !e.vector.isEmpty)).map
        (fun e => (⟨e.id, e.full_name, e.vector⟩ : EmployeeEmbedding)))).status
      = .matched)
    (h4 : py_truthy_int (recognize_face dist embedding_outcome
      ((employees.filter (fun e => !e.vector.isEmpty)).map
        (fun e =>
          (⟨e.id, e.full_name, e.vector⟩ : EmployeeEmbedding)))).person_id
      = true)
    (h5 : can_log_entry logs
      ((recognize_face dist embedding_outcome
        ((employees.filter (fun e => !e.vector.isEmpty)).map
          (fun e =>
            (⟨e.id, e.full_name, e.vector⟩ : EmployeeEmbedding)))).person_id.getD
        0) COOLDOWN_SECONDS now = false) :
    process_snapshot_internal dist image_data true employees
      embedding_outcome persist_ok trace_id now logs =
      ⟨logs, .moved_to_recognized, true⟩ := by
  have hemp : employees ≠ [] := by
    intro h
    subst h
    exact h2 rfl
  have hra : record_attendance logs
      ((recognize_face dist embedding_outcome
        ((employees.filter (fun e => !e.vector.isEmpty)).map
          (fun e =>
            (⟨e.id, e.full_name, e.vector⟩ : EmployeeEmbedding)))).person_id.getD
        0)
      (recognize_face dist embedding_outcome
        ((employees.filter (fun e => !e.vector.isEmpty)).map
          (fun e =>
            (⟨e.id, e.full_name, e.vector⟩ : EmployeeEmbedding)))).confidence
      trace_id now persist_ok = .ok logs := by
    simp [record_attendance, h5]
  unfold process_snapshot_internal
  rw [if_neg h1]
  simp only [Bool.true_eq_false, if_false, if_neg hemp, if_neg h2,
    if_pos (And.intro h3 h4), hra]

/-- Witness for `process_snapshot_cooldown_rejected` at the concrete
matched-but-cooled-down scenario. -/
theorem process_snapshot_cooldown_rejected_witness :
    process_snapshot_internal euclidean_distance_dim1 [1] true
      [⟨1, "a", [0]⟩] (.ok ⟨[0], true, 1⟩) true ("u") 10
      [⟨1, .entry, 1, "x", 0⟩] =
      ⟨[⟨1, .entry, 1, "x", 0⟩], .moved_to_recognized, true⟩ := by
  have hdb : (([⟨1, "a", [0]⟩] : List EmployeeRow).filter
      (fun e => !e.vector.isEmpty)).map
      (fun e => (⟨e.id, e.full_name, e.vector⟩ : EmployeeEmbedding))
      = [⟨1, "a", [0]⟩] := by simp
  exact process_snapshot_cooldown_rejected euclidean_distance_dim1 [1]
    [⟨1, "a", [0]⟩] (.ok ⟨[0], true, 1⟩) true ("u") 10
    [⟨1, .entry, 1, "x", 0⟩] (by simp) (by simp [hdb])
    (by rw [hdb, recognize_face_scenario])
    (by rw [hdb, recognize_face_scenario]; simp [py_truthy_int])
    (by rw [hdb, recognize_face_scenario]; exact can_log_entry_scenario)

/-- **C4, counterexample.** A matched snapshot whose attendance write
fails (`persist_ok = false`) while the cooldown would allow logging: the
persistence error does *not* surface to the dispatcher
(`_record_attendance` returns normally, `Except.ok`, because its
`try/except` at `snapshot_handler.py` lines 186-197 logs and swallows the
exception), and the snapshot is *not* left untouched — it is still moved
to the `recognized/` archive. -/
theorem record_attendance_failure_counterexample :
    can_log_entry [] 1 COOLDOWN_SECONDS 10 = true ∧
    record_attendance [] 1 1 ("t") 10 false = .ok [] ∧
    process_snapshot_internal euclidean_distance_dim1 [1] true
      [⟨1, "a", [0]⟩] (.ok ⟨[0], true, 1⟩) false ("t") 10 [] =
      ⟨[], .moved_to_recognized, true⟩ := by
  refine ⟨rfl, ?_, ?_⟩
  · simp [record_attendance, can_log_entry, last_log]
  · have hra : record_attendance [] 1 1 ("t") 10 false = .ok [] := by
      simp [record_attendance, can_log_entry, last_log]
    simp [process_snapshot_internal, recognize_face_scenario, py_truthy_int,
      hra]

/-- **C4 (amended).** If the persistence layer fails while recording an
attendance event for a matched snapshot, the error is caught and logged
inside `_record_attendance` and does not surface to the dispatcher — the
call returns normally with the attendance table unchanged — and the
snapshot is then still moved to the `recognized/` archive rather than
being left in place for reprocessing. -/
theorem record_attendance_swallows (dist : List ℚ → List ℚ → ℚ)
    (image_data : List ℕ) (employees : List EmployeeRow)
    (embedding_outcome : Except String EmbeddingResult)
    (trace_id : String) (now : ℚ) (logs : List AttendanceLog)
    (eid : ℤ) (confidence : ℚ)
    (h1 : image_data ≠ [])
    (h2 : (employees.filter (fun e => !e.vector.isEmpty)).map
      (fun e => (⟨e.id, e.full_name, e.vector⟩ : EmployeeEmbedding)) ≠ [])
    (h3 : (recognize_face dist embedding_outcome
      ((employees.filter (fun e => !e.vector.isEmpty)).map
        (fun e => (⟨e.id, e.full_name, e.vector⟩ : EmployeeEmbedding)))).status
      = .matched)
    (h4 : py_truthy_int (recognize_face dist embedding_outcome
      ((employees.filter (fun e => !e.vector.isEmpty)).map
        (fun e =>
          (⟨e.id, e.full_name, e.vector⟩ : EmployeeEmbedding)))).person_id
      = true) :
    record_attendance logs eid confidence trace_id now false = .ok logs ∧
    process_snapshot_internal dist image_data true employees
      embedding_outcome false trace_id now logs =
      ⟨logs, .moved_to_recognized, true⟩ := by
  have hswallow : ∀ (l : List AttendanceLog) (e : ℤ) (c : ℚ),
      record_attendance l e c trace_id now false = .ok l := by
    intro l e c
    unfold record_attendance
    rcases hcan : can_log_entry l e COOLDOWN_SECONDS now with _ | _ <;>
      simp [hcan]
  have hemp : employees ≠ [] := by
    intro h
    subst h
    exact h2 rfl
  refine ⟨hswallow logs eid confidence, ?_⟩
  unfold process_snapshot_internal
  rw [if_neg h1]
  simp only [Bool.true_eq_false, if_false, if_neg hemp, if_neg h2,
    if_pos (And.intro h3 h4), hswallow]

/-- Witness for `record_attendance_swallows` at the concrete matched
scenario with a failing persistence layer. -/
theorem record_attendance_swallows_witness :
    record_attendance [] 1 1 ("v") 10 false = .ok [] ∧
    process_snapshot_internal euclidean_distance_dim1 [1] true
      [⟨1, "a", [0]⟩] (.ok ⟨[0], true, 1⟩) false ("v") 10 [] =
      ⟨[], .moved_to_recognized, true⟩ := by
  have hdb : (([⟨1, "a", [0]⟩] : List EmployeeRow).filter
      (fun e => !e.vector.isEmpty)).map
      (fun e => (⟨e.id, e.full_name, e.vector⟩ : EmployeeEmbedding))
      = [⟨1, "a", [0]⟩] := by simp
  exact record_attendance_swallows euclidean_distance_dim1 [1]
    [⟨1, "a", [0]⟩] (.ok ⟨[0], true, 1⟩) ("v") 10 [] 1 1
    (by simp) (by simp [hdb])
    (by rw [hdb, recognize_face_scenario])
    (by rw [hdb, recognize_face_scenario]; simp [py_truthy_int])

/-- **C10.** For every non-empty snapshot file, if the recognition service
is not ready, or every employee row's embedding vector is empty (in
particular if there are no employee rows at all), `_process_snapshot_internal`
returns early: recognition is never invoked, no attendance event is
created, and the snapshot file is left in place untouched. -/
theorem process_snapshot_early_return (dist : List ℚ → List ℚ → ℚ)
    (image_data : List ℕ) (ready : Bool) (employees : List EmployeeRow)
    (embedding_outcome : Except String EmbeddingResult) (persist_ok : Bool)
    (trace_id : String) (now : ℚ) (logs : List AttendanceLog)
    (h1 : image_data ≠ []) :
    (ready = false →
      process_snapshot_internal dist image_data ready employees
        embedding_outcome persist_ok trace_id now logs =
        ⟨logs, .untouched, false⟩) ∧
    ((∀ e ∈ employees, e.vector = []) →
      process_snapshot_internal dist image_data true employees
        embedding_outcome persist_ok trace_id now logs =
        ⟨logs, .untouched, false⟩) := by
  constructor
  · intro hr
    unfold process_snapshot_internal
    rw [if_neg h1, hr]
    simp
  · intro hv
    unfold process_snapshot_internal
    rw [if_neg h1]
    by_cases hemp : employees = []
    · subst hemp
      simp
    · have hfil : employees.filter (fun e => !e.vector.isEmpty) = [] := by
        rw [List.filter_eq_nil_iff]
        intro e he
        simp [hv e he]
      simp [hemp, hfil]

/-- Witness for `process_snapshot_early_return`: a non-empty snapshot with
the recognition service not ready is left untouched and unprocessed. -/
theorem process_snapshot_early_return_witness :
    process_snapshot_internal euclidean_distance_dim1 [1] false
      [⟨1, "a", [0]⟩] (.ok ⟨[0], true, 1⟩) true ("w") 0 [] =
      ⟨[], .untouched, false⟩ :=
  (process_snapshot_early_return euclidean_distance_dim1 [1] false
    [⟨1, "a", [0]⟩] (.ok ⟨[0], true, 1⟩) true ("w") 0 [] (by simp)).1 rfl

/-! ## `CameraEventListener` backoff (`camera/event_listener.py`)

The outer `while` loop of `_event_listener_loop` keeps one piece of backoff
state, `reconnect_delay` (initially 5).  Each iteration ("cycle") tries
`asyncio.open_connection`; on success the loop sets `reconnect_delay = 5`
(line 149) and reads events until the connection closes or errors.
However a cycle ends — refusal, another exception, or stream close — the
`finally`-adjacent tail sleeps the current `reconnect_delay` and then sets
`reconnect_delay = min(reconnect_delay * 2, 60)` (lines 205-207).  A cycle
is observed as the Boolean "did the connection open" plus the sleep it
performs; `_should_stop` shutdown merely truncates the trace. -/

/-- The initial / reset value `reconnect_delay = 5` (lines 134 and 149). -/
def RECONNECT_BASE_DELAY : ℕ := 5

/-- The backoff ceiling `60` of `min(reconnect_delay * 2, 60)`
(line 207). -/
def RECONNECT_MAX_DELAY : ℕ := 60

/-- One cycle of the reconnect loop: `connected` is whether
`open_connection` succeeded (which resets the delay to the base before the
cycle's sleep).  Result: (delay slept at the end of this cycle, delay state
for the next cycle). -/
def listener_cycle (reconnect_delay : ℕ) (connected : Bool) : ℕ × ℕ :=
  let d := if connected then RECONNECT_BASE_DELAY else reconnect_delay
  (d, min (d * 2) RECONNECT_MAX_DELAY)

/-- The sleeps performed over a sequence of cycles, from a given delay
state. -/
def listener_delays (reconnect_delay : ℕ) : List Bool → List ℕ
  | [] => []
  | c :: cs =>
    (listener_cycle reconnect_delay c).1 ::
      listener_delays (listener_cycle reconnect_delay c).2 cs

/-- The delay state left behind by a sequence of cycles. -/
def listener_run (reconnect_delay : ℕ) : List Bool → ℕ
  | [] => reconnect_delay
  | c :: cs => listener_run (listener_cycle reconnect_delay c).2 cs

/-- Doubling-with-ceiling composes: one doubling step followed by `k` more
equals `k + 1` steps. -/
theorem min_double_pow (d k : ℕ) :
    min (min (d * 2) 60 * 2 ^ k) 60 = min (d * 2 ^ (k + 1)) 60 := by
  rcases le_total (d * 2) 60 with h | h
  · rw [min_eq_left h]
    congr 1
    ring
  · rw [min_eq_right h]
    have h1 : (60 : ℕ) ≤ 60 * 2 ^ k :=
      Nat.le_mul_of_pos_right 60 (Nat.pos_pow_of_pos k (by norm_num))
    have h2 : (60 : ℕ) ≤ d * 2 ^ (k + 1) := by
      calc (60 : ℕ) ≤ d * 2 := h
        _ ≤ d * 2 * 2 ^ k :=
          Nat.le_mul_of_pos_right _ (Nat.pos_pow_of_pos k (by norm_num))
        _ = d * 2 ^ (k + 1) := by ring
    rw [min_eq_right h1, min_eq_right h2]

/-- A streak of `n` consecutive failed cycles from delay state `d ≤ 60`
sleeps `min(d·2^k, 60)` at its `k`-th cycle. -/
theorem listener_delays_replicate (n : ℕ) (d : ℕ) (hd : d ≤ 60) :
    listener_delays d (List.replicate n false) =
      (List.range n).map (fun k => min (d * 2 ^ k) 60) := by
  induction n generalizing d with
  | zero => rfl
  | succ n ih =>
    rw [List.replicate_succ, List.range_succ_eq_map]
    simp only [listener_delays, listener_cycle, Bool.false_eq_true, if_false,
      List.map_cons, List.map_map, RECONNECT_MAX_DELAY, List.cons.injEq]
    constructor
    · rw [pow_zero, mul_one, min_eq_left hd]
    · rw [ih (min (d * 2) 60) (min_le_right _ _)]
      apply List.map_congr_left
      intro k _
      simp only [Function.comp]
      exact min_double_pow d k

/-- **C9.** In the reconnect loop, starting from the initial state the
delays of a streak of `n` consecutive failed cycles are
`min(5·2^k, 60)` — base value 5 first, doubling up to the 60-second
ceiling; that sequence is monotone in `k` and every delay ever slept from
the initial state lies in `[5, 60]`; and whatever delay state history has
accumulated, a successful connection resets it, so the delays from the
success on are again `min(5·2^k, 60)` starting at the base value. -/
theorem listener_backoff_spec (n : ℕ) (outcomes : List Bool) (d : ℕ) :
    listener_delays RECONNECT_BASE_DELAY (List.replicate n false) =
      (List.range n).map
        (fun k => min (RECONNECT_BASE_DELAY * 2 ^ k) RECONNECT_MAX_DELAY) ∧
    listener_delays d (true :: List.replicate n false) =
      (List.range (n + 1)).map
        (fun k => min (RECONNECT_BASE_DELAY * 2 ^ k) RECONNECT_MAX_DELAY) ∧
    (∀ j k, j ≤ k →
      min (RECONNECT_BASE_DELAY * 2 ^ j) RECONNECT_MAX_DELAY ≤
        min (RECONNECT_BASE_DELAY * 2 ^ k) RECONNECT_MAX_DELAY) ∧
    (∀ x ∈ listener_delays RECONNECT_BASE_DELAY outcomes,
      RECONNECT_BASE_DELAY ≤ x ∧ x ≤ RECONNECT_MAX_DELAY) ∧
    listener_delays d (outcomes ++ true :: List.replicate n false) =
      listener_delays d outcomes ++
        (List.range (n + 1)).map
          (fun k => min (RECONNECT_BASE_DELAY * 2 ^ k) RECONNECT_MAX_DELAY) := by
  have hreset : ∀ d0 : ℕ,
      listener_delays d0 (true :: List.replicate n false) =
      (List.range (n + 1)).map
        (fun k => min (RECONNECT_BASE_DELAY * 2 ^ k) RECONNECT_MAX_DELAY) := by
    intro d0
    show RECONNECT_BASE_DELAY ::
        listener_delays (min (RECONNECT_BASE_DELAY * 2) RECONNECT_MAX_DELAY)
          (List.replicate n false) = _
    rw [listener_delays_replicate n
      (min (RECONNECT_BASE_DELAY * 2) RECONNECT_MAX_DELAY)
      (by norm_num [RECONNECT_BASE_DELAY, RECONNECT_MAX_DELAY])]
    rw [List.range_succ_eq_map]
    simp only [List.map_cons, List.map_map, List.cons.injEq]
    constructor
    · norm_num [RECONNECT_BASE_DELAY, RECONNECT_MAX_DELAY]
    · apply List.map_congr_left
      intro k _
      simp only [Function.comp, RECONNECT_BASE_DELAY, RECONNECT_MAX_DELAY]
      exact min_double_pow 5 k
  have happend : ∀ (xs ys : List Bool) (d0 : ℕ),
      listener_delays d0 (xs ++ ys) =
      listener_delays d0 xs ++ listener_delays (listener_run d0 xs) ys := by
    intro xs
    induction xs with
    | nil => intro ys d0; rfl
    | cons x xs ih =>
      intro ys d0
      have h := ih ys (listener_cycle d0 x).2
      simp only [List.cons_append, listener_delays, listener_run,
        List.append_eq, h]
  have hinv : ∀ (os : List Bool) (d0 : ℕ), 5 ≤ d0 → d0 ≤ 60 →
      ∀ x ∈ listener_delays d0 os, 5 ≤ x ∧ x ≤ 60 := by
    intro os
    induction os with
    | nil => intro d0 _ _ x hx; exact absurd hx (List.not_mem_nil x)
    | cons c cs ih =>
      intro d0 h5 h60 x hx
      simp only [listener_delays, listener_cycle] at hx
      rcases List.mem_cons.mp hx with rfl | hx
      · rcases c with _ | _ <;>
          simp only [if_pos, if_neg, Bool.false_eq_true, if_false, if_true]
        · exact ⟨h5, h60⟩
        · exact ⟨by norm_num [RECONNECT_BASE_DELAY],
            by norm_num [RECONNECT_BASE_DELAY]⟩
      · refine ih _ ?_ ?_ x hx
        · rcases c with _ | _ <;>
            simp only [Bool.false_eq_true, if_false, if_true,
              RECONNECT_BASE_DELAY, RECONNECT_MAX_DELAY] <;> omega
        · rcases c with _ | _ <;>
            simp only [Bool.false_eq_true, if_false, if_true,
              RECONNECT_BASE_DELAY, RECONNECT_MAX_DELAY] <;> omega
  refine ⟨listener_delays_replicate n RECONNECT_BASE_DELAY
      (by norm_num [RECONNECT_BASE_DELAY, RECONNECT_MAX_DELAY]),
    hreset d, ?_, hinv outcomes RECONNECT_BASE_DELAY (le_refl _)
      (by norm_num [RECONNECT_BASE_DELAY, RECONNECT_MAX_DELAY]), ?_⟩
  · intro j k hjk
    exact min_le_min
      (Nat.mul_le_mul_left _ (Nat.pow_le_pow_right (by norm_num) hjk))
      (le_refl _)
  · rw [happend outcomes (true :: List.replicate n false) d,
      hreset (listener_run d outcomes)]

/-- Witness for `listener_backoff_spec`: three refused connections sleep
5 s, 10 s, 20 s, and after a success the next failures restart from 5 s. -/
theorem listener_backoff_spec_witness :
    listener_delays RECONNECT_BASE_DELAY (List.replicate 3 false) =
      [5, 10, 20] ∧
    listener_delays 40 (true :: List.replicate 3 false) = [5, 10, 20, 40] := by
  have h := listener_backoff_spec 3 [] 40
  exact ⟨by rw [h.1]; decide, by rw [h.2.1]; decide⟩

end FaceRecVisitLog
